import Mathlib

/-!
Verification development for the metro incremental bundler core.

The definitions below are shallow embeddings of the repository's source
files (`metro-cache`'s layered `Cache`, `ModuleResolution.js`,
`FSEventsWatcher.js`, and the constant-folding transform).  Components whose
implementation is not part of the snapshot (only their tests or type
declarations are) are modelled from the specification and marked as such in
their doc comments.
-/

namespace MetroCache

/-- Modelled from the spec: a backing cache store (`CacheStore` port,
spec section 4.4 and 6).  `metro-cache`'s store classes are not part of the
source snapshot.  `get` may fail (a thrown error or rejected promise is the
`Except.error` case) or return `none` (a `null`/`undefined` miss); a promise
result is modelled as its awaited value, since the cache awaits any promise
before consulting the next store.  `set` returns `none` on success and
`some cause` when the write throws or rejects with that cause. -/
structure Store (K V : Type) where
  name : String
  get : K → Except String (Option V)
  set : K → V → Option String

/-- Observable outcome of a layered-cache `get`: the returned value or
propagated error, the indices of the stores whose `get` was invoked (in
invocation order), and the back-fill `set` calls `(store index, value)`
issued fire-and-forget. -/
structure GetOutcome (V : Type) where
  result : Except String (Option V)
  consulted : List Nat
  backfilled : List (Nat × V)

/-- Modelled from the spec: `Cache.get`, trying stores in index order
starting at global index `b`.  On the first non-null result at global index
`i` it back-fills stores `0..i-1` with that result and returns; a store
error propagates; if every store misses the result is `null`. -/
def cacheGetFrom {K V : Type} (stores : List (Store K V)) (k : K) (b : Nat) :
    GetOutcome V :=
  match stores with
  | [] => ⟨.ok none, [], []⟩
  | s :: rest =>
    match s.get k with
    | .error e => ⟨.error e, [b], []⟩
    | .ok (some v) => ⟨.ok (some v), [b], (List.range b).map (fun j => (j, v))⟩
    | .ok none =>
      let r := cacheGetFrom rest k (b + 1)
      ⟨r.result, b :: r.consulted, r.backfilled⟩

/-- Modelled from the spec: `Cache.get` over the ordered store list. -/
def cacheGet {K V : Type} (stores : List (Store K V)) (k : K) : GetOutcome V :=
  cacheGetFrom stores k 0

/-- Observable outcome of a layered-cache `set`: which store indices
received the write, and the `(store name, cause)` pairs of the failed
writes, in store order. -/
structure SetOutcome where
  written : List Nat
  failures : List (String × String)

/-- Modelled from the spec: `Cache.set` writes to every store (spec: in
parallel; the failure set is order-insensitive) and collects the failures,
starting at global index `b`. -/
def cacheSetFrom {K V : Type} (stores : List (Store K V)) (k : K) (v : V)
    (b : Nat) : SetOutcome :=
  match stores with
  | [] => ⟨[], []⟩
  | s :: rest =>
    let r := cacheSetFrom rest k v (b + 1)
    match s.set k v with
    | none => ⟨b :: r.written, r.failures⟩
    | some cause => ⟨b :: r.written, (s.name, cause) :: r.failures⟩

/-- Modelled from the spec: `Cache.set`.  If any store write failed, the
call rejects with an aggregated error carrying every `(store, cause)` pair;
otherwise it succeeds.  The outcome records the writes actually issued. -/
def cacheSet {K V : Type} (stores : List (Store K V)) (k : K) (v : V) :
    Except (List (String × String)) Unit × SetOutcome :=
  let o := cacheSetFrom stores k v 0
  (if o.failures.isEmpty then .ok () else .error o.failures, o)

/-- A store answering every `get` with `null` and accepting every write
(the `Local` store of the spec's cache-layering scenario). -/
def localStore : Store Nat String :=
  ⟨"Local", fun _ => .ok none, fun _ _ => none⟩

/-- A store answering every `get` with the hit `"X"` (the `Network` store
of the spec's cache-layering scenario). -/
def networkStore : Store Nat String :=
  ⟨"Network", fun _ => .ok (some "X"), fun _ _ => none⟩

/-- A store whose `get` misses and whose `set` succeeds. -/
def goodStore : Store Nat String :=
  ⟨"GoodStore", fun _ => .ok none, fun _ _ => none⟩

/-- A store whose `set` rejects asynchronously with cause `"foo"`. -/
def badAsyncStore : Store Nat String :=
  ⟨"BadAsyncStore", fun _ => .ok none, fun _ _ => some "foo"⟩

/-- A store whose `set` throws synchronously with cause `"bar"`. -/
def badSyncStore : Store Nat String :=
  ⟨"BadSyncStore", fun _ => .ok none, fun _ _ => some "bar"⟩

/-- A store whose `get` fails with error `"bar"`. -/
def buggyGetStore : Store Nat String :=
  ⟨"Buggy", fun _ => .error "bar", fun _ _ => none⟩

theorem cacheGetFrom_hit {K V : Type} (k : K) :
    ∀ (stores : List (Store K V)) (b i : Nat) (s : Store K V) (v : V),
      (∀ j, j < i → ∃ t, stores.get? j = some t ∧ t.get k = .ok none) →
      stores.get? i = some s → s.get k = .ok (some v) →
      cacheGetFrom stores k b =
        ⟨.ok (some v), List.range' b (i + 1),
          (List.range (b + i)).map (fun j => (j, v))⟩ := by
  intro stores
  induction stores with
  | nil => intro b i s v _ hi _; simp at hi
  | cons hd tl ih =>
    intro b i s v hbefore hi hv
    cases i with
    | zero =>
      simp at hi
      subst hi
      simp [cacheGetFrom, hv, List.range']
    | succ n =>
      have hhd : hd.get k = .ok none := by
        obtain ⟨t, ht, htn⟩ := hbefore 0 (Nat.succ_pos n)
        simp at ht
        subst ht
        exact htn
      have hrest := ih (b + 1) n s v
        (fun j hj => by
          obtain ⟨t, ht, htn⟩ := hbefore (j + 1) (Nat.succ_lt_succ hj)
          exact ⟨t, by simpa using ht, htn⟩)
        (by simpa using hi) hv
      have hstep : cacheGetFrom (hd :: tl) k b =
          ⟨(cacheGetFrom tl k (b + 1)).result,
            b :: (cacheGetFrom tl k (b + 1)).consulted,
            (cacheGetFrom tl k (b + 1)).backfilled⟩ := by
        simp only [cacheGetFrom, hhd]
      rw [hstep, hrest]
      have h2 : b + 1 + n = b + (n + 1) := by omega
      rw [h2, List.range'_succ b (n + 1) 1]

theorem cacheGetFrom_allnull {K V : Type} (k : K) :
    ∀ (stores : List (Store K V)) (b : Nat),
      (∀ s ∈ stores, s.get k = .ok none) →
      cacheGetFrom stores k b = ⟨.ok none, List.range' b stores.length, []⟩ := by
  intro stores
  induction stores with
  | nil => intro b _; simp [cacheGetFrom]
  | cons hd tl ih =>
    intro b hall
    have hhd : hd.get k = .ok none := hall hd (List.mem_cons_self hd tl)
    have hrest := ih (b + 1) (fun s hs => hall s (List.mem_cons_of_mem hd hs))
    have hstep : cacheGetFrom (hd :: tl) k b =
        ⟨(cacheGetFrom tl k (b + 1)).result,
          b :: (cacheGetFrom tl k (b + 1)).consulted,
          (cacheGetFrom tl k (b + 1)).backfilled⟩ := by
      simp only [cacheGetFrom, hhd]
    rw [hstep, hrest]
    simp only [List.length_cons]
    have h1 : b :: List.range' (b + 1) tl.length =
        List.range' b (tl.length + 1) := by
      rw [List.range'_succ]
    rw [h1]

/-- Claim C1: `TransformCache.get(k)` consults the stores sequentially in
index order, awaiting each store before the next (store promises are
modelled as their awaited values), returns the first non-null result, never
consults a store after the first hit, and returns `null` when every store
misses. -/
theorem cacheGet_first_nonnull {K V : Type} (stores : List (Store K V))
    (k : K) :
    (∀ (i : Nat) (s : Store K V) (v : V),
      (∀ j, j < i → ∃ t, stores.get? j = some t ∧ t.get k = .ok none) →
      stores.get? i = some s → s.get k = .ok (some v) →
      (cacheGet stores k).result = .ok (some v) ∧
        (cacheGet stores k).consulted = List.range (i + 1)) ∧
    ((∀ s ∈ stores, s.get k = .ok none) →
      (cacheGet stores k).result = .ok none ∧
        (cacheGet stores k).consulted = List.range stores.length) := by
  constructor
  · intro i s v hbefore hi hv
    have h := cacheGetFrom_hit k stores 0 i s v hbefore hi hv
    rw [cacheGet, h]
    exact ⟨rfl, by simp [List.range_eq_range']⟩
  · intro hall
    have h := cacheGetFrom_allnull k stores 0 hall
    rw [cacheGet, h]
    exact ⟨rfl, by simp [List.range_eq_range']⟩

/-- Witness for C1 on the spec's layering scenario: with stores
`[Local, Network]` where `Local` misses and `Network` hits with `"X"`,
`get` returns `"X"` having consulted exactly stores `0` and `1`. -/
theorem cacheGet_first_nonnull_witness :
    (cacheGet [localStore, networkStore] 0).result = .ok (some "X") ∧
      (cacheGet [localStore, networkStore] 0).consulted = List.range 2 := by
  have h := (cacheGet_first_nonnull [localStore, networkStore] 0).1 1
    networkStore "X"
    (fun j hj => by
      cases j with
      | zero => exact ⟨localStore, rfl, rfl⟩
      | succ n => omega)
    rfl rfl
  exact h

/-- Claim C2: on the first non-null result `v` at store index `i`, the
cache back-fills exactly the stores `0..i-1` with `v` (one `set` each, in
index order) and no store at index `i` or later is written; concretely with
stores `[Local, Network]`, `Local` missing and `Network` hitting `"X"`,
`get` returns `"X"`, `Local.set` is observed exactly once with `"X"`, and
`Network.set` is never called. -/
theorem cacheGet_backfill {K V : Type} (stores : List (Store K V)) (k : K) :
    (∀ (i : Nat) (s : Store K V) (v : V),
      (∀ j, j < i → ∃ t, stores.get? j = some t ∧ t.get k = .ok none) →
      stores.get? i = some s → s.get k = .ok (some v) →
      (cacheGet stores k).backfilled = (List.range i).map (fun j => (j, v))) ∧
    (cacheGet [localStore, networkStore] 0).result = .ok (some "X") ∧
    (cacheGet [localStore, networkStore] 0).backfilled = [(0, "X")] := by
  refine ⟨?_, rfl, rfl⟩
  intro i s v hbefore hi hv
  have h := cacheGetFrom_hit k stores 0 i s v hbefore hi hv
  rw [cacheGet, h]
  simp

/-- Witness for C2: on the concrete `[Local, Network]` scenario, the
back-fill writes are exactly one `set` of `"X"` on store `0` (`Local`). -/
theorem cacheGet_backfill_witness :
    (cacheGet [localStore, networkStore] 0).backfilled =
      (List.range 1).map (fun j => (j, "X")) := by
  exact (cacheGet_backfill [localStore, networkStore] 0).1 1 networkStore "X"
    (fun j hj => by
      cases j with
      | zero => exact ⟨localStore, rfl, rfl⟩
      | succ n => omega)
    rfl rfl

theorem cacheSetFrom_spec {K V : Type} (k : K) (v : V) :
    ∀ (stores : List (Store K V)) (b : Nat),
      (cacheSetFrom stores k v b).written = List.range' b stores.length ∧
        (cacheSetFrom stores k v b).failures =
          stores.filterMap
            (fun s => Option.map (fun c => (s.name, c)) (s.set k v)) := by
  intro stores
  induction stores with
  | nil => intro b; simp [cacheSetFrom]
  | cons hd tl ih =>
    intro b
    obtain ⟨hw, hf⟩ := ih (b + 1)
    cases hset : hd.set k v with
    | none =>
      refine ⟨?_, ?_⟩
      · simp only [cacheSetFrom, hset, List.length_cons]
        rw [hw, List.range'_succ]
      · simp only [cacheSetFrom, hset, List.filterMap_cons, Option.map_none']
        exact hf
    | some cause =>
      refine ⟨?_, ?_⟩
      · simp only [cacheSetFrom, hset, List.length_cons]
        rw [hw, List.range'_succ]
      · simp only [cacheSetFrom, hset, List.filterMap_cons, Option.map_some']
        rw [hf]

/-- Claim C6: `TransformCache.set(k, v)` issues the write to every store
(successful stores receive the write even when others fail), and fails
exactly when some store write fails, rejecting with the aggregated failure
list that names every failing store paired with its individual cause. -/
theorem cacheSet_spec {K V : Type} (stores : List (Store K V)) (k : K)
    (v : V) :
    (cacheSet stores k v).2.written = List.range stores.length ∧
    (cacheSet stores k v).2.failures =
      stores.filterMap
        (fun s => Option.map (fun c => (s.name, c)) (s.set k v)) ∧
    ((cacheSet stores k v).1 = .ok () ↔ ∀ s ∈ stores, s.set k v = none) ∧
    (∀ s ∈ stores, ∀ c, s.set k v = some c →
      (cacheSet stores k v).1 = .error (cacheSet stores k v).2.failures ∧
        (s.name, c) ∈ (cacheSet stores k v).2.failures) := by
  obtain ⟨hw, hf⟩ := cacheSetFrom_spec k v stores 0
  have hw0 : (cacheSet stores k v).2.written = List.range stores.length := by
    rw [cacheSet]
    simpa [List.range_eq_range'] using hw
  have hf0 : (cacheSet stores k v).2.failures =
      stores.filterMap
        (fun s => Option.map (fun c => (s.name, c)) (s.set k v)) := by
    rw [cacheSet]
    exact hf
  refine ⟨hw0, hf0, ?_, ?_⟩
  · constructor
    · intro hok s hs
      by_contra hne
      cases hset : s.set k v with
      | none => exact hne hset
      | some c =>
        have hmem : (s.name, c) ∈ (cacheSetFrom stores k v 0).failures := by
          rw [hf, List.mem_filterMap]
          exact ⟨s, hs, by rw [hset]; rfl⟩
        have hne2 : ¬ (cacheSetFrom stores k v 0).failures.isEmpty := by
          intro hemp
          rw [List.isEmpty_iff] at hemp
          rw [hemp] at hmem
          simp at hmem
        have herr : (cacheSet stores k v).1 =
            .error (cacheSetFrom stores k v 0).failures := by
          rw [cacheSet]
          simp [hne2]
        rw [herr] at hok
        simp at hok
    · intro hall
      have hemp : (cacheSetFrom stores k v 0).failures = [] := by
        rw [hf, List.filterMap_eq_nil_iff]
        intro s hs
        rw [hall s hs]
        rfl
      rw [cacheSet]
      simp [hemp]
  · intro s hs c hset
    have hmem : (s.name, c) ∈ (cacheSetFrom stores k v 0).failures := by
      rw [hf, List.mem_filterMap]
      exact ⟨s, hs, by rw [hset]; rfl⟩
    have hne2 : ¬ (cacheSetFrom stores k v 0).failures.isEmpty := by
      intro hemp
      rw [List.isEmpty_iff] at hemp
      rw [hemp] at hmem
      simp at hmem
    constructor
    · rw [cacheSet]
      simp [hne2]
    · rw [cacheSet]
      simpa using hmem

theorem cacheGetFrom_error {K V : Type} (k : K) :
    ∀ (stores : List (Store K V)) (b i : Nat) (s : Store K V) (e : String),
      (∀ j, j < i → ∃ t, stores.get? j = some t ∧ t.get k = .ok none) →
      stores.get? i = some s → s.get k = .error e →
      cacheGetFrom stores k b = ⟨.error e, List.range' b (i + 1), []⟩ := by
  intro stores
  induction stores with
  | nil => intro b i s e _ hi _; simp at hi
  | cons hd tl ih =>
    intro b i s e hbefore hi he
    cases i with
    | zero =>
      simp at hi
      subst hi
      simp [cacheGetFrom, he, List.range']
    | succ n =>
      have hhd : hd.get k = .ok none := by
        obtain ⟨t, ht, htn⟩ := hbefore 0 (Nat.succ_pos n)
        simp at ht
        subst ht
        exact htn
      have hrest := ih (b + 1) n s e
        (fun j hj => by
          obtain ⟨t, ht, htn⟩ := hbefore (j + 1) (Nat.succ_lt_succ hj)
          exact ⟨t, by simpa using ht, htn⟩)
        (by simpa using hi) he
      have hstep : cacheGetFrom (hd :: tl) k b =
          ⟨(cacheGetFrom tl k (b + 1)).result,
            b :: (cacheGetFrom tl k (b + 1)).consulted,
            (cacheGetFrom tl k (b + 1)).backfilled⟩ := by
        simp only [cacheGetFrom, hhd]
      rw [hstep, hrest]
      rw [List.range'_succ b (n + 1) 1]

/-- Claim C7: if a backing store's `get` throws or rejects while
`TransformCache.get(k)` is consulting it (every earlier store having
missed), the whole `get(k)` call rejects with exactly that error — no value
is returned and no back-fill write is issued. -/
theorem cacheGet_error_propagates {K V : Type} (stores : List (Store K V))
    (k : K) (i : Nat) (s : Store K V) (e : String)
    (hbefore : ∀ j, j < i → ∃ t, stores.get? j = some t ∧ t.get k = .ok none)
    (hi : stores.get? i = some s) (he : s.get k = .error e) :
    (cacheGet stores k).result = .error e ∧
      (cacheGet stores k).backfilled = [] := by
  have h := cacheGetFrom_error k stores 0 i s e hbefore hi he
  rw [cacheGet, h]
  exact ⟨rfl, rfl⟩

/-- Witness for C7 on the test scenario: a first store missing and a second
store whose `get` fails with `"bar"` make the whole `get` fail with
`"bar"`. -/
theorem cacheGet_error_propagates_witness :
    (cacheGet [localStore, buggyGetStore] 0).result = .error "bar" ∧
      (cacheGet [localStore, buggyGetStore] 0).backfilled = [] := by
  exact cacheGet_error_propagates [localStore, buggyGetStore] 0 1
    buggyGetStore "bar"
    (fun j hj => by
      cases j with
      | zero => exact ⟨localStore, rfl, rfl⟩
      | succ n => omega)
    rfl rfl

/-- Witness for C6 on the test scenario `[GoodStore, BadAsyncStore,
BadSyncStore]`: every store receives the write, the call rejects with the
aggregated failure list, and the failing stores appear in it paired with
their causes. -/
theorem cacheSet_spec_witness :
    (cacheSet [goodStore, badAsyncStore, badSyncStore] 0 "arg").2.written =
      List.range 3 ∧
    (cacheSet [goodStore, badAsyncStore, badSyncStore] 0 "arg").1 =
      .error (cacheSet [goodStore, badAsyncStore, badSyncStore] 0 "arg").2.failures ∧
    ("BadSyncStore", "bar") ∈
      (cacheSet [goodStore, badAsyncStore, badSyncStore] 0 "arg").2.failures := by
  obtain ⟨hw, -, -, h4⟩ :=
    cacheSet_spec [goodStore, badAsyncStore, badSyncStore] 0 "arg"
  have hbad := h4 badSyncStore (by simp) "bar" rfl
  exact ⟨by simpa using hw, hbad.1, hbad.2⟩

end MetroCache

namespace ModuleResolution

/-- A line/column position; lines are 1-based and columns 0-based at the
`BabelSourceLocation` level, as produced by the transformer. -/
structure SourcePosition where
  line : Int
  column : Int
deriving Repr, DecidableEq

/-- A `BabelSourceLocation` as recorded on a dependency (`data.locs`).  The
source's `end` field is named `stop` because `end` is reserved in Lean. -/
structure BabelSourceLocation where
  start : SourcePosition
  stop : SourcePosition
deriving Repr, DecidableEq

/-- The `data` record of a `TransformResultDependency` (the fields this
embedding needs: the dependency key, the ESM flag and the recorded source
locations). -/
structure DependencyData where
  key : String
  isESMImport : Bool
  locs : List BabelSourceLocation
deriving Repr, DecidableEq

/-- A `TransformResultDependency`: the specifier text plus its data. -/
structure TransformResultDependency where
  name : String
  data : DependencyData
deriving Repr, DecidableEq

/-- A `metro-resolver` `Resolution` (declared in the repository's type
files): a concrete source file, a set of asset files, or the empty-module
sentinel. -/
inductive Resolution where
  | sourceFile (filePath : String)
  | assetFiles (filePaths : List String)
  | empty
deriving Repr, DecidableEq

/-- A `BundlerResolution`: the bundler-facing resolution, always a single
source file path (`type: 'sourceFile'`). -/
structure BundlerResolution where
  filePath : String
deriving Repr, DecidableEq

/-- The `metro-resolver` `FileCandidates` shape carried by
`FailedToResolvePathError`.  The source-file constructor's first field is
named `filePathPrefix` in the source. -/
inductive FileCandidates where
  | asset (name : String)
  | sourceFilesCase (prefixPath : String) (candidateExts : List String)
deriving Repr, DecidableEq

/-- The `candidates` record of a `FailedToResolvePathError`: the file and
directory candidate sets that were tried (either may be absent). -/
structure FileAndDirCandidates where
  file : Option FileCandidates
  dir : Option FileCandidates
deriving Repr, DecidableEq

/-- The location shape handed to `@babel/code-frame`'s `codeFrameColumns`:
a start position and an optional end position (1-based columns). -/
structure CodeLocation where
  start : SourcePosition
  stop : Option SourcePosition
deriving Repr, DecidableEq

/-- External collaborators of `ModuleResolution.js` (Node's `fs` and
`path`, `@babel/code-frame`): `readFile` returns `none` on `ENOENT` /
`EISDIR`, `codeFrame` is `codeFrameColumns` over the file contents and a
location, and `relative` is `path.relative`. -/
structure Env where
  readFile : String → Option String
  codeFrame : String → CodeLocation → String
  relative : String → String → String

/-- JavaScript string indexing `s[i]`: the character at `i`, or `undefined`
(`none`) when out of range. -/
def charAt (s : String) (i : Int) : Option Char :=
  if i < 0 then none else s.toList.get? i.toNat

/-- JavaScript `String.prototype.slice` with the index-clamping semantics
of negative and out-of-range arguments. -/
def jsSlice (s : String) (a b : Int) : String :=
  let len : Int := s.length
  let a0 := if a < 0 then max (len + a) 0 else min a len
  let b0 := if b < 0 then max (len + b) 0 else min b len
  if a0 < b0 then String.mk ((s.toList.drop a0.toNat).take (b0 - a0).toNat)
  else ""

/-- Whether `t` occurs in `s` starting at index `i`. -/
def occursAt (s t : List Char) (i : Nat) : Bool :=
  (s.drop i).take t.length == t

/-- JavaScript `String.prototype.lastIndexOf(t, pos)`: the largest start
index `≤ pos` of an occurrence of `t`, or `-1`. -/
def jsLastIndexOfFrom (s t : String) (pos : Int) : Int :=
  let sl := s.toList
  let bound : Nat := if pos < 0 then 0 else min pos.toNat sl.length
  match ((List.range (bound + 1)).filter (occursAt sl t.toList)).getLast? with
  | some i => (i : Int)
  | none => -1

/-- JavaScript `String.prototype.lastIndexOf(t)` (search from the end). -/
def jsLastIndexOf (s t : String) : Int :=
  jsLastIndexOfFrom s t (s.length : Int)

/-- The quote characters recognized by `isQuote`: double quote, single
quote and backquote (by character code). -/
def quoteChars : List Char := [Char.ofNat 34, Char.ofNat 39, Char.ofNat 96]

/-- The source's `isQuote`: whether the (possibly absent) character is one
of the three quote characters. -/
def isQuote (c : Option Char) : Bool :=
  match c with
  | some ch => quoteChars.contains ch
  | none => false

/-- Line `i` of the split file, `""` when out of range (the source indexes
`lines[line]` only for lines inside the dependency location). -/
def lineAt (lines : List String) (i : Int) : String :=
  if i < 0 then "" else lines.getD i.toNat ""

/-- The inner scan of `refineDependencyLocation`: walk occurrences of the
specifier right-to-left inside `lineSlice` (the loop over `offset`),
returning the 1-based column of the last occurrence surrounded by matching
quotes.  `fuel` bounds the strictly decreasing offset. -/
def refineScan (lineStr lineSlice target : String) (minColumn : Int) :
    Nat → Int → Option Int
  | 0, _ => none
  | fuel + 1, offset =>
    if offset = -1 ∨ ¬ (0 < offset) ∨ ¬ (offset < (lineSlice.length : Int) - 1)
    then none
    else
      let maybeQuoteBefore := charAt lineSlice (minColumn + offset - 1)
      let maybeQuoteAfter :=
        charAt lineStr (minColumn + offset + (target.length : Int))
      if isQuote maybeQuoteBefore ∧ maybeQuoteBefore = maybeQuoteAfter then
        some (minColumn + offset + 1)
      else
        refineScan lineStr lineSlice target minColumn fuel
          (jsLastIndexOfFrom lineSlice target (offset - 1))

/-- The outer loop of `refineDependencyLocation`: lines from
`loc.end.line - 1` down to `loc.start.line - 1` (0-based), computing the
per-line slice bounds exactly as the source does. -/
def refineLines (lines : List String) (loc : BabelSourceLocation)
    (target : String) : Nat → Int → Option CodeLocation
  | 0, _ => none
  | fuel + 1, line =>
    if line < loc.start.line - 1 then none
    else
      let lineStr := lineAt lines line
      let maxColumn : Int :=
        if line = loc.stop.line then loc.stop.column + 2
        else (lineStr.length : Int)
      let minColumn : Int :=
        if line = loc.start.line then loc.start.column - 1 else 0
      let lineSlice := jsSlice lineStr minColumn maxColumn
      match refineScan lineStr lineSlice target minColumn
          (lineSlice.length + 1) (jsLastIndexOf lineSlice target) with
      | some col => some ⟨⟨line + 1, col⟩, none⟩
      | none => refineLines lines loc target fuel (line - 1)

/-- Given a recorded source location for the dependency, return the
location used for the code frame: the last occurrence of the specifier
surrounded by matching quotes inside the location, else the exact
single-line range, else the first column of the location. -/
def refineDependencyLocation (loc : BabelSourceLocation)
    (fileContents target : String) : CodeLocation :=
  let lines := fileContents.splitOn "\n"
  match refineLines lines loc target
      (loc.stop.line - loc.start.line + 2).toNat (loc.stop.line - 1) with
  | some res => res
  | none =>
    if loc.start.line = loc.stop.line then
      ⟨⟨loc.start.line, loc.start.column + 1⟩,
        some ⟨loc.stop.line, loc.stop.column + 1⟩⟩
    else ⟨⟨loc.start.line, loc.start.column + 1⟩, none⟩

/-- With no recorded location, guess one: the first line containing the
specifier, at its last occurrence in that line. -/
def guessDependencyLocation (fileContents target : String) : CodeLocation :=
  let lines := fileContents.splitOn "\n"
  match lines.enum.find? (fun p => decide (0 ≤ jsLastIndexOf p.2 target)) with
  | some (ln, str) => ⟨⟨(ln : Int) + 1, jsLastIndexOf str target + 1⟩, none⟩
  | none => ⟨⟨1, 0⟩, none⟩

/-- The `UnableToResolveError` thrown by `ModuleResolver.resolveDependency`
(its observable fields: origin, target and assembled message). -/
structure UnableToResolveError where
  originModulePath : String
  targetModuleName : String
  message : String
deriving Repr, DecidableEq

/-- The error taxonomy of the underlying `metro-resolver` `resolve` call:
the three resolver errors of spec 4.3 plus any other thrown error. -/
inductive ResolverError where
  | failedToResolvePath (candidates : FileAndDirCandidates)
  | failedToResolveName (dirPaths : List String) (extraPaths : List String)
  | failedToResolveUnsupported (message : String)
  | otherError (message : String)
deriving Repr, DecidableEq

/-- What `resolveDependency` can throw: a wrapped `UnableToResolveError`,
or any other error rethrown unchanged (including the `invariant` failure
on an empty asset resolution and fuel exhaustion of the embedding). -/
inductive ResolveDependencyError where
  | unableToResolve (e : UnableToResolveError)
  | otherError (message : String)
deriving Repr, DecidableEq

/-- Modelled from the spec: `metro-resolver`'s `formatFileCandidates`
(that package is not part of the source snapshot).  It prints an asset
candidate's name, and a source-file candidate as its path followed by the
candidate extensions. -/
def formatFileCandidates : FileCandidates → String
  | .asset n => n
  | .sourceFilesCase p exts => p ++ "(" ++ String.intercalate "|" exts ++ ")"

/-- The source's `_removeRoot`: make a source-file candidate's path prefix
relative to the project root (when the prefix is non-empty). -/
def removeRoot (env : Env) (projectRoot : String) :
    FileCandidates → FileCandidates
  | .asset n => .asset n
  | .sourceFilesCase p exts =>
    .sourceFilesCase (if p = "" then p else env.relative projectRoot p) exts

/-- The source's `UnableToResolveError.buildCodeFrameMessage`: read the
origin file (`none` when it cannot be read, in which case there is no code
frame), pick the location from the dependency's first recorded loc (else
guess it from the file), and render the code frame. -/
def buildCodeFrameMessage (env : Env)
    (originModulePath targetModuleName : String)
    (dependency : Option TransformResultDependency) : Option String :=
  match env.readFile originModulePath with
  | none => none
  | some file =>
    let location :=
      match dependency with
      | some dep =>
        match dep.data.locs with
        | loc :: _ => refineDependencyLocation loc file targetModuleName
        | [] => guessDependencyLocation file targetModuleName
      | none => guessDependencyLocation file targetModuleName
    some (env.codeFrame file location)

/-- The `UnableToResolveError` constructor: the message is
`util.format('Unable to resolve module %s from %s: %s', ...)` plus the code
frame when one could be built (an empty frame string is falsy in the
source and appends nothing). -/
def mkUnableToResolveError (env : Env)
    (originModulePath targetModuleName message : String)
    (dependency : Option TransformResultDependency) : UnableToResolveError :=
  let codeFrameMessage :=
    buildCodeFrameMessage env originModulePath targetModuleName dependency
  { originModulePath := originModulePath
    targetModuleName := targetModuleName
    message :=
      "Unable to resolve module " ++ targetModuleName ++ " from " ++
        originModulePath ++ ": " ++ message ++
        (match codeFrameMessage with
         | some s => if s = "" then "" else "\n" ++ s
         | none => "") }

/-- The options of a `ModuleResolver` that this embedding needs, with the
underlying `Resolver.resolve` (plus the context built by
`createDefaultContext`) abstracted as the `resolve` field. -/
structure ModuleResolverOptions where
  emptyModulePath : String
  projectRoot : String
  dirExists : String → Bool
  resolve : String → TransformResultDependency → Except ResolverError Resolution

/-- The mutable state of a `ModuleResolver` instance: the cached empty
module, plus (for observability) the `(origin, specifier)` arguments of
every `Resolver.resolve` invocation, most recent first. -/
structure ResolverState where
  cachedEmptyModule : Option BundlerResolution
  resolveCalls : List (String × String)
deriving Repr, DecidableEq

/-- The source's `path.join(projectRoot, '_')` for a root without trailing
separator. -/
def pathJoin (a b : String) : String := a ++ "/" ++ b

/-- The `_projectRootFakeModulePath` computed by the constructor. -/
def projectRootFakeModulePath (opts : ModuleResolverOptions) : String :=
  pathJoin opts.projectRoot "_"

/-- The dependency record `_getEmptyModule` builds for the configured
`emptyModulePath` (no async type, not an ESM import, no locations). -/
def emptyModuleDependency (opts : ModuleResolverOptions) :
    TransformResultDependency :=
  ⟨opts.emptyModulePath, ⟨opts.emptyModulePath, false, []⟩⟩

/-- The source's `getArrayLowestItem`: `undefined` on an empty array, else
the running minimum of the JavaScript `<` comparison over the array. -/
def getArrayLowestItem (a : List String) : Option String :=
  match a with
  | [] => none
  | x :: xs =>
    some (xs.foldl (fun lowest item => if item < lowest then item else lowest) x)

/-- The message body built for a `FailedToResolvePathError`: the file and
directory candidate sets that were tried, with the project root stripped. -/
def pathErrorMessage (env : Env) (opts : ModuleResolverOptions)
    (candidates : FileAndDirCandidates) : String :=
  "\n\nNone of these files exist:\n" ++
    String.intercalate "\n"
      (([candidates.file, candidates.dir].filterMap id).map
        (fun c => "  * " ++ formatFileCandidates (removeRoot env opts.projectRoot c)))

/-- The message body built for a `FailedToResolveNameError`: the searched
directories that exist (made relative to the project root) plus the extra
hinted paths. -/
def nameErrorMessage (env : Env) (opts : ModuleResolverOptions)
    (dependencyName : String) (dirPaths extraPaths : List String) : String :=
  let displayDirPaths :=
    (dirPaths.filter (fun d => opts.dirExists d)).map
      (fun d => env.relative opts.projectRoot d) ++ extraPaths
  let hint := if displayDirPaths.length ≠ 0 then " or in these directories:" else ""
  String.intercalate "\n"
    ((dependencyName ++ " could not be found within the project" ++
        (if hint = "" then "." else hint)) ::
      displayDirPaths.map (fun d => "  " ++ d))

/-- The source's `_getEmptyModule`: return the cached empty module, or
resolve `emptyModulePath` from the fake project-root module path through
the given recursive `resolveDependency` handle and cache the result. -/
def getEmptyModule (opts : ModuleResolverOptions)
    (recur : ResolverState → String → TransformResultDependency →
      Except ResolveDependencyError (BundlerResolution × ResolverState))
    (st : ResolverState) :
    Except ResolveDependencyError (BundlerResolution × ResolverState) :=
  match st.cachedEmptyModule with
  | some m => .ok (m, st)
  | none =>
    match recur st (projectRootFakeModulePath opts)
        (emptyModuleDependency opts) with
    | .error e => .error e
    | .ok (m, st1) => .ok (m, { st1 with cachedEmptyModule := some m })

/-- The source's `_getFileResolvedModule`: coerce a resolver `Resolution`
to a `BundlerResolution` — a source file is returned as is, an asset
resolution is coerced to its lexicographically lowest path (`invariant`
failure when empty), and the empty sentinel yields the cached empty
module. -/
def getFileResolvedModule (opts : ModuleResolverOptions)
    (recur : ResolverState → String → TransformResultDependency →
      Except ResolveDependencyError (BundlerResolution × ResolverState))
    (st : ResolverState) (resolution : Resolution) :
    Except ResolveDependencyError (BundlerResolution × ResolverState) :=
  match resolution with
  | .sourceFile filePath => .ok (⟨filePath⟩, st)
  | .assetFiles filePaths =>
    match getArrayLowestItem filePaths with
    | some arbitrary => .ok (⟨arbitrary⟩, st)
    | none => .error (.otherError "invalid asset resolution")
  | .empty => getEmptyModule opts recur st

/-- The source's `ModuleResolver.resolveDependency`: run the underlying
resolver (recording the invocation), coerce its resolution, and wrap each
of the three resolver errors into a single `UnableToResolveError` whose
message carries a code frame for the dependency's recorded location; other
errors are rethrown unchanged.  `fuel` bounds the recursion through the
empty-module resolution. -/
def resolveDependency (opts : ModuleResolverOptions) (env : Env) :
    Nat → ResolverState → String → TransformResultDependency →
      Except ResolveDependencyError (BundlerResolution × ResolverState)
  | 0, _, _, _ => .error (.otherError "recursion limit reached")
  | fuel + 1, st, originModulePath, dependency =>
    let st1 : ResolverState :=
      { st with
        resolveCalls := (originModulePath, dependency.name) :: st.resolveCalls }
    match opts.resolve originModulePath dependency with
    | .ok result =>
      getFileResolvedModule opts (resolveDependency opts env fuel) st1 result
    | .error (.failedToResolvePath candidates) =>
      .error (.unableToResolve
        (mkUnableToResolveError env originModulePath dependency.name
          (pathErrorMessage env opts candidates) (some dependency)))
    | .error (.failedToResolveUnsupported message) =>
      .error (.unableToResolve
        (mkUnableToResolveError env originModulePath dependency.name
          message (some dependency)))
    | .error (.failedToResolveName dirPaths extraPaths) =>
      .error (.unableToResolve
        (mkUnableToResolveError env originModulePath dependency.name
          (nameErrorMessage env opts dependency.name dirPaths extraPaths)
          (some dependency)))
    | .error (.otherError message) => .error (.otherError message)

theorem foldlLowest_spec :
    ∀ (xs : List String) (x : String),
      (xs.foldl (fun lowest item => if item < lowest then item else lowest) x
          = x ∨
        xs.foldl (fun lowest item => if item < lowest then item else lowest) x
          ∈ xs) ∧
      xs.foldl (fun lowest item => if item < lowest then item else lowest) x
        ≤ x ∧
      (∀ y ∈ xs,
        xs.foldl (fun lowest item => if item < lowest then item else lowest) x
          ≤ y) := by
  intro xs
  induction xs with
  | nil => intro x; exact ⟨Or.inl rfl, le_refl x, by simp⟩
  | cons hd tl ih =>
    intro x
    obtain ⟨hmem, hle, hall⟩ := ih (if hd < x then hd else x)
    refine ⟨?_, ?_, ?_⟩
    · cases hmem with
      | inl h =>
        rw [List.foldl_cons, h]
        by_cases hcmp : hd < x
        · rw [if_pos hcmp]
          exact Or.inr (List.mem_cons_self hd tl)
        · rw [if_neg hcmp]
          exact Or.inl rfl
      | inr h => exact Or.inr (List.mem_cons_of_mem hd h)
    · rw [List.foldl_cons]
      by_cases hcmp : hd < x
      · calc tl.foldl _ (if hd < x then hd else x) ≤ if hd < x then hd else x :=
            hle
          _ = hd := if_pos hcmp
          _ ≤ x := le_of_lt hcmp
      · calc tl.foldl _ (if hd < x then hd else x) ≤ if hd < x then hd else x :=
            hle
          _ = x := if_neg hcmp
    · intro y hy
      rw [List.foldl_cons]
      rcases List.mem_cons.mp hy with hyh | hyt
      · subst hyh
        by_cases hcmp : y < x
        · calc tl.foldl _ (if y < x then y else x) ≤ if y < x then y else x :=
            hle
            _ = y := if_pos hcmp
        · calc tl.foldl _ (if y < x then y else x) ≤ if y < x then y else x :=
            hle
            _ = x := if_neg hcmp
            _ ≤ y := le_of_not_lt hcmp
      · exact hall y hyt

/-- Claim C4: a resolution of type `assetFiles` with a non-empty path list
is coerced to a `sourceFile` resolution at the lexicographically smallest
element of the list (a member of the list bounding every element from
below), without touching the resolver state. -/
theorem assetFiles_lowest (opts : ModuleResolverOptions)
    (recur : ResolverState → String → TransformResultDependency →
      Except ResolveDependencyError (BundlerResolution × ResolverState))
    (st : ResolverState) (filePaths : List String) (hne : filePaths ≠ []) :
    ∃ m, getFileResolvedModule opts recur st (.assetFiles filePaths) =
        .ok (⟨m⟩, st) ∧ m ∈ filePaths ∧ ∀ x ∈ filePaths, m ≤ x := by
  cases filePaths with
  | nil => exact absurd rfl hne
  | cons hd tl =>
    obtain ⟨hmem, hle, hall⟩ := foldlLowest_spec tl hd
    refine ⟨tl.foldl (fun lowest item => if item < lowest then item else lowest)
      hd, rfl, ?_, ?_⟩
    · cases hmem with
      | inl h => rw [h]; exact List.mem_cons_self hd tl
      | inr h => exact List.mem_cons_of_mem hd h
    · intro y hy
      rcases List.mem_cons.mp hy with hyh | hyt
      · rw [hyh]; exact hle
      · exact hall y hyt

/-- An environment with no readable files, an empty code frame and the
identity relative-path function, for exercising the resolver on inputs
that do not reach those collaborators. -/
def plainEnv : Env := ⟨fun _ => none, fun _ _ => "", fun _ p => p⟩

/-- Options whose resolver answers the fake project-root module path with
a concrete source file and everything else with the empty sentinel. -/
def emptyTestOpts : ModuleResolverOptions :=
  ⟨"empty-module.js", "/p", fun _ => false,
    fun origin _ =>
      if origin = "/p/_" then .ok (.sourceFile "/p/node_modules/empty-module.js")
      else .ok .empty⟩

/-- A dependency on a specifier that the test resolver maps to `empty`. -/
def someDep : TransformResultDependency :=
  ⟨"./missing", ⟨"./missing", false, []⟩⟩

/-- Witness for C4 at a concrete asset resolution: the smallest of three
paths is returned. -/
theorem assetFiles_lowest_witness :
    ∃ m, getFileResolvedModule emptyTestOpts
        (resolveDependency emptyTestOpts plainEnv 0) ⟨none, []⟩
        (.assetFiles ["b.png", "a.png", "c.png"]) = .ok (⟨m⟩, ⟨none, []⟩) ∧
      m ∈ ["b.png", "a.png", "c.png"] ∧
      ∀ x ∈ ["b.png", "a.png", "c.png"], m ≤ x :=
  assetFiles_lowest emptyTestOpts (resolveDependency emptyTestOpts plainEnv 0)
    ⟨none, []⟩ ["b.png", "a.png", "c.png"] (by decide)

/-- Claim C10: a resolution of type `empty` is coerced into the resolution
of the configured `emptyModulePath` from the fake module path at the
project root; the first such coercion performs that one extra resolver
invocation and caches its result, and any coercion in a state that already
holds a cached value returns that identical value with no further resolver
invocation for the fake path. -/
theorem emptyModule_cached (opts : ModuleResolverOptions) (env : Env)
    (p : String)
    (hres : opts.resolve (projectRootFakeModulePath opts)
        (emptyModuleDependency opts) = .ok (.sourceFile p)) :
    (∀ (fuel : Nat) (st : ResolverState) (origin : String)
        (dep : TransformResultDependency),
      st.cachedEmptyModule = none →
      opts.resolve origin dep = .ok .empty →
      resolveDependency opts env (fuel + 2) st origin dep =
        .ok (⟨p⟩,
          ⟨some ⟨p⟩,
            (projectRootFakeModulePath opts, opts.emptyModulePath) ::
              (origin, dep.name) :: st.resolveCalls⟩)) ∧
    (∀ (fuel : Nat) (st : ResolverState) (m : BundlerResolution)
        (origin : String) (dep : TransformResultDependency),
      st.cachedEmptyModule = some m →
      opts.resolve origin dep = .ok .empty →
      resolveDependency opts env (fuel + 1) st origin dep =
        .ok (m, ⟨some m, (origin, dep.name) :: st.resolveCalls⟩)) := by
  constructor
  · intro fuel st origin dep hnone hempty
    obtain ⟨c, calls⟩ := st
    simp only at hnone
    subst hnone
    show resolveDependency opts env ((fuel + 1) + 1) ⟨none, calls⟩ origin dep
      = _
    simp only [resolveDependency, hempty, getFileResolvedModule,
      getEmptyModule, hres]
    rfl
  · intro fuel st m origin dep hsome hempty
    obtain ⟨c, calls⟩ := st
    simp only at hsome
    subst hsome
    simp only [resolveDependency, hempty, getFileResolvedModule,
      getEmptyModule]

/-- Witness for C10: with the test resolver, the first empty coercion
resolves the empty module once through the fake root path and caches it,
and a pre-cached state returns the cached value with only the outer
resolver invocation recorded. -/
theorem emptyModule_cached_witness :
    resolveDependency emptyTestOpts plainEnv 2 ⟨none, []⟩ "/p/src/app.js"
        someDep =
      .ok (⟨"/p/node_modules/empty-module.js"⟩,
        ⟨some ⟨"/p/node_modules/empty-module.js"⟩,
          [("/p/_", "empty-module.js"), ("/p/src/app.js", "./missing")]⟩) ∧
    resolveDependency emptyTestOpts plainEnv 1
        ⟨some ⟨"/p/node_modules/empty-module.js"⟩, []⟩ "/p/src/app.js"
        someDep =
      .ok (⟨"/p/node_modules/empty-module.js"⟩,
        ⟨some ⟨"/p/node_modules/empty-module.js"⟩,
          [("/p/src/app.js", "./missing")]⟩) := by
  have h := emptyModule_cached emptyTestOpts plainEnv
    "/p/node_modules/empty-module.js" (by rfl)
  exact ⟨h.1 0 ⟨none, []⟩ "/p/src/app.js" someDep rfl (by rfl),
    h.2 0 ⟨some ⟨"/p/node_modules/empty-module.js"⟩, []⟩
      ⟨"/p/node_modules/empty-module.js"⟩ "/p/src/app.js" someDep rfl
      (by rfl)⟩

/-- Claim C3: each of the three resolver errors is wrapped into a single
`UnableToResolveError` whose message carries the code frame rendered at
the location refined from the dependency's first recorded loc; for a
`FailedToResolvePathError` (with both candidate sets present) the message
additionally names the file and the directory candidate sets that were
tried. -/
theorem resolver_errors_wrapped (opts : ModuleResolverOptions) (env : Env)
    (origin : String) (dep : TransformResultDependency) (file : String)
    (loc : BabelSourceLocation) (locs2 : List BabelSourceLocation)
    (fuel : Nat) (st : ResolverState)
    (hfile : env.readFile origin = some file)
    (hlocs : dep.data.locs = loc :: locs2)
    (hframe :
      env.codeFrame file (refineDependencyLocation loc file dep.name) ≠ "") :
    (∀ fc dc,
      opts.resolve origin dep =
        .error (.failedToResolvePath ⟨some fc, some dc⟩) →
      resolveDependency opts env (fuel + 1) st origin dep =
        .error (.unableToResolve
          ⟨origin, dep.name,
            "Unable to resolve module " ++ dep.name ++ " from " ++ origin ++
              ": " ++ pathErrorMessage env opts ⟨some fc, some dc⟩ ++
              ("\n" ++
                env.codeFrame file
                  (refineDependencyLocation loc file dep.name))⟩) ∧
      pathErrorMessage env opts ⟨some fc, some dc⟩ =
        "\n\nNone of these files exist:\n" ++
          ("  * " ++ formatFileCandidates (removeRoot env opts.projectRoot fc)
            ++ "\n" ++
            ("  * " ++
              formatFileCandidates (removeRoot env opts.projectRoot dc)))) ∧
    (∀ msg,
      opts.resolve origin dep =
        .error (.failedToResolveUnsupported msg) →
      resolveDependency opts env (fuel + 1) st origin dep =
        .error (.unableToResolve
          ⟨origin, dep.name,
            "Unable to resolve module " ++ dep.name ++ " from " ++ origin ++
              ": " ++ msg ++
              ("\n" ++
                env.codeFrame file
                  (refineDependencyLocation loc file dep.name))⟩)) ∧
    (∀ dirPaths extraPaths,
      opts.resolve origin dep =
        .error (.failedToResolveName dirPaths extraPaths) →
      resolveDependency opts env (fuel + 1) st origin dep =
        .error (.unableToResolve
          ⟨origin, dep.name,
            "Unable to resolve module " ++ dep.name ++ " from " ++ origin ++
              ": " ++ nameErrorMessage env opts dep.name dirPaths extraPaths ++
              ("\n" ++
                env.codeFrame file
                  (refineDependencyLocation loc file dep.name))⟩)) := by
  refine ⟨?_, ?_, ?_⟩
  · intro fc dc hres
    constructor
    · simp only [resolveDependency, hres, mkUnableToResolveError,
        buildCodeFrameMessage, hfile, hlocs]
      rw [if_neg hframe]
    · rfl
  · intro msg hres
    simp only [resolveDependency, hres, mkUnableToResolveError,
      buildCodeFrameMessage, hfile, hlocs]
    rw [if_neg hframe]
  · intro dirPaths extraPaths hres
    simp only [resolveDependency, hres, mkUnableToResolveError,
      buildCodeFrameMessage, hfile, hlocs]
    rw [if_neg hframe]

/-- A relative-path function stripping the root prefix, standing in for
Node's `path.relative` on paths under the root. -/
def specRelative (root p : String) : String :=
  if (root ++ "/").isPrefixOf p then p.drop (root.length + 1) else p

/-- The contents of the scenario's origin file `/p/src/foo.js`. -/
def fooFile : String := "require(\"./bar\");"

/-- The recorded location of the `require("./bar")` call in `fooFile`. -/
def barLoc : BabelSourceLocation := ⟨⟨1, 0⟩, ⟨1, 17⟩⟩

/-- The dependency on `./bar` recorded at `barLoc`. -/
def barDep : TransformResultDependency :=
  ⟨"./bar", ⟨"./bar", false, [barLoc]⟩⟩

/-- The file candidates tried for `./bar` (prefix `/p/src/bar`). -/
def barFileCands : FileCandidates := .sourceFilesCase "/p/src/bar" ["js"]

/-- The directory candidates tried for `./bar` (`/p/src/bar/index`). -/
def barDirCands : FileCandidates :=
  .sourceFilesCase "/p/src/bar/index" ["js"]

/-- An environment for the resolver-failure scenario: `/p/src/foo.js` is
readable, the code frame renders the location markers, and relative paths
strip the root. -/
def wrapEnv : Env :=
  ⟨fun p => if p = "/p/src/foo.js" then some fooFile else none,
    fun _ l => "frame at " ++ toString l.start.line ++ ":" ++
      toString l.start.column,
    specRelative⟩

/-- Options whose resolver fails with `FailedToResolvePathError` carrying
the two candidate sets for `./bar`. -/
def wrapOpts : ModuleResolverOptions :=
  ⟨"empty-module.js", "/p", fun _ => false,
    fun _ _ => .error (.failedToResolvePath ⟨some barFileCands,
      some barDirCands⟩)⟩

/-- Witness for C3 on the spec scenario: resolving `./bar` from
`/p/src/foo.js` with neither candidate existing raises the single wrapped
error whose message names both candidate sets and ends with the code frame
rendered at the refined location of the `./bar` literal. -/
theorem resolver_errors_wrapped_witness :
    resolveDependency wrapOpts wrapEnv 1 ⟨none, []⟩ "/p/src/foo.js" barDep =
      .error (.unableToResolve
        ⟨"/p/src/foo.js", "./bar",
          "Unable to resolve module " ++ "./bar" ++ " from " ++
            "/p/src/foo.js" ++ ": " ++
            pathErrorMessage wrapEnv wrapOpts ⟨some barFileCands,
              some barDirCands⟩ ++
            ("\n" ++ wrapEnv.codeFrame fooFile
              (refineDependencyLocation barLoc fooFile "./bar"))⟩) ∧
    pathErrorMessage wrapEnv wrapOpts ⟨some barFileCands, some barDirCands⟩ =
      "\n\nNone of these files exist:\n" ++
        ("  * " ++ formatFileCandidates (removeRoot wrapEnv "/p" barFileCands)
          ++ "\n" ++
          ("  * " ++
            formatFileCandidates (removeRoot wrapEnv "/p" barDirCands))) :=
  (resolver_errors_wrapped wrapOpts wrapEnv "/p/src/foo.js" barDep fooFile
    barLoc [] 0 ⟨none, []⟩ (by rfl) rfl (by decide)).1 barFileCands
    barDirCands rfl

end ModuleResolution

namespace FSEventsWatcher

/-- The result of `fs.promises.lstat`: modification time in milliseconds
(`stat.mtime.getTime()`) and byte size. -/
structure Stat where
  mtimeMs : Int
  size : Nat
deriving Repr, DecidableEq

/-- A change-event file type (`f` regular file, `l` symlink, `d`
directory), as classified by `typeFromStat`. -/
inductive FileType where
  | f
  | l
  | d
deriving Repr, DecidableEq

/-- The `ChangeEventMetadata` attached to a touch event. -/
structure ChangeEventMetadata where
  type : FileType
  modifiedTime : Int
  size : Nat
deriving Repr, DecidableEq

/-- A thrown filesystem error, carrying its `code` (e.g. `"ENOENT"`). -/
structure FsError where
  code : String
deriving Repr, DecidableEq

/-- Everything `_handleEvent` can emit: a `touch` event, a `delete` event,
or an `error` event (via `this.emit('error', ...)`). -/
inductive WatcherEvent where
  | touchEvent (relativePath : String) (metadata : ChangeEventMetadata)
  | deleteEvent (relativePath : String)
  | errorEvent (code : String)
deriving Repr, DecidableEq

/-- The source's `FSEventsWatcher._handleEvent` for one path.  The
collaborators from `watchers/common.js` (not part of the snapshot) and
Node's `path` are parameters: `typeFromStat` classifies an lstat result
(`none` for unrecognized types), `included` is
`isIncluded(type, glob, dot, doIgnore, relativePath)` with the watcher's
configuration already applied, and `relative` is `path.relative`.  The
lstat outcome for the path is passed in as `lstatResult`.  Returns the
emitted events and the new tracked set. -/
def handleEvent (typeFromStat : Stat → Option FileType)
    (included : FileType → String → Bool)
    (relative : String → String → String) (root : String)
    (tracked : List String) (lstatResult : Except FsError Stat)
    (filepath : String) : List WatcherEvent × List String :=
  let relativePath := relative root filepath
  match lstatResult with
  | .ok stat =>
    match typeFromStat stat with
    | none => ([], tracked)
    | some ty =>
      if ¬ included ty relativePath then ([], tracked)
      else
        ([.touchEvent relativePath ⟨ty, stat.mtimeMs, stat.size⟩],
          if filepath ∈ tracked then tracked else filepath :: tracked)
  | .error e =>
    if e.code ≠ "ENOENT" then ([.errorEvent e.code], tracked)
    else if filepath ∉ tracked then ([], tracked)
    else ([.deleteEvent relativePath], tracked.erase filepath)

/-- Claim C8: a `delete` event is emitted only for a path already present
in the tracked set, and a failed lstat with code `ENOENT` on an untracked
path is silently swallowed — no event of any kind is emitted and the
tracked set is unchanged. -/
theorem delete_only_tracked (typeFromStat : Stat → Option FileType)
    (included : FileType → String → Bool)
    (relative : String → String → String) (root : String)
    (tracked : List String) (lstatResult : Except FsError Stat)
    (filepath : String) :
    (∀ rp,
      WatcherEvent.deleteEvent rp ∈
        (handleEvent typeFromStat included relative root tracked lstatResult
          filepath).1 →
      filepath ∈ tracked) ∧
    (∀ e, lstatResult = .error e → e.code = "ENOENT" →
      filepath ∉ tracked →
      handleEvent typeFromStat included relative root tracked lstatResult
        filepath = ([], tracked)) := by
  constructor
  · intro rp hmem
    match hres : lstatResult with
    | .ok stat =>
      simp only [handleEvent] at hmem
      match htype : typeFromStat stat with
      | none => simp [htype] at hmem
      | some ty =>
        by_cases hinc : included ty (relative root filepath)
        · simp [htype, hinc] at hmem
        · simp [htype, hinc] at hmem
    | .error e =>
      simp only [handleEvent] at hmem
      by_cases hcode : e.code = "ENOENT"
      · by_cases htr : filepath ∈ tracked
        · exact htr
        · simp [hcode, htr] at hmem
      · simp [hcode] at hmem
  · intro e hres hcode htr
    rw [hres]
    simp only [handleEvent]
    simp [hcode, htr]

/-- Witness for C8: an `ENOENT` lstat failure on an untracked path emits
nothing and leaves the (empty) tracked set unchanged. -/
theorem delete_only_tracked_witness :
    handleEvent (fun _ => some .f) (fun _ _ => true) (fun _ p => p) "/root"
      [] (.error ⟨"ENOENT"⟩) "/root/gone.js" = ([], []) :=
  (delete_only_tracked (fun _ => some .f) (fun _ _ => true) (fun _ p => p)
    "/root" [] (.error ⟨"ENOENT"⟩) "/root/gone.js").2 ⟨"ENOENT"⟩ rfl rfl
    (by simp)

/-- One step in the sequential await structure of `FSEventsWatcher.close`:
await the initial readdir, await the fsevents watch stopper, remove all
listeners, then await a promise resolved by a `setTimeout` whose timer
fires after the given delay in milliseconds, inside which the optional
callback is invoked just before the promise (and hence `close`) resolves. -/
inductive CloseStep where
  | awaitInitialReaddir
  | stopFsEventsWatch
  | removeAllListeners
  | timerFired (delayMs : Nat)
  | invokeCallback
  | resolveClosePromise
deriving Repr, DecidableEq

/-- The event trace of `close(callback?)`: a direct sequentialization of
the source's `await` chain, with the 100 ms cooldown timer (`setTimeout(
..., 100)`) firing before the callback runs and the promise resolves. -/
def closeTrace (hasCallback : Bool) : List CloseStep :=
  [.awaitInitialReaddir, .stopFsEventsWatch, .removeAllListeners,
    .timerFired 100] ++
    (if hasCallback then [.invokeCallback] else []) ++ [.resolveClosePromise]

/-- Claim C9: wherever `close`'s promise resolves in the trace, the 100 ms
cooldown timer has already fired at a strictly earlier step, itself
strictly after the underlying watch was stopped; and wherever the optional
callback is invoked, the cooldown timer has already fired. -/
theorem close_cooldown (hasCallback : Bool) :
    (∀ i, (closeTrace hasCallback).get? i = some .resolveClosePromise →
      ∃ j, j < i ∧ (closeTrace hasCallback).get? j = some (.timerFired 100) ∧
        ∃ r, r < j ∧
          (closeTrace hasCallback).get? r = some .stopFsEventsWatch) ∧
    (∀ i, (closeTrace hasCallback).get? i = some .invokeCallback →
      ∃ j, j < i ∧
        (closeTrace hasCallback).get? j = some (.timerFired 100)) := by
  cases hasCallback with
  | false =>
    constructor
    · intro i h
      match i with
      | 0 | 1 | 2 | 3 => simp [closeTrace] at h
      | 4 => exact ⟨3, by omega, by decide, 1, by omega, by decide⟩
      | n + 5 =>
        rw [show (closeTrace false) = [.awaitInitialReaddir,
          .stopFsEventsWatch, .removeAllListeners, .timerFired 100,
          .resolveClosePromise] from rfl] at h
        simp at h
    · intro i h
      match i with
      | 0 | 1 | 2 | 3 | 4 => simp [closeTrace] at h
      | n + 5 =>
        rw [show (closeTrace false) = [.awaitInitialReaddir,
          .stopFsEventsWatch, .removeAllListeners, .timerFired 100,
          .resolveClosePromise] from rfl] at h
        simp at h
  | true =>
    constructor
    · intro i h
      match i with
      | 0 | 1 | 2 | 3 | 4 => simp [closeTrace] at h
      | 5 => exact ⟨3, by omega, by decide, 1, by omega, by decide⟩
      | n + 6 =>
        rw [show (closeTrace true) = [.awaitInitialReaddir,
          .stopFsEventsWatch, .removeAllListeners, .timerFired 100,
          .invokeCallback, .resolveClosePromise] from rfl] at h
        simp at h
    · intro i h
      match i with
      | 0 | 1 | 2 | 3 | 5 => simp [closeTrace] at h
      | 4 => exact ⟨3, by omega, by decide⟩
      | n + 6 =>
        rw [show (closeTrace true) = [.awaitInitialReaddir,
          .stopFsEventsWatch, .removeAllListeners, .timerFired 100,
          .invokeCallback, .resolveClosePromise] from rfl] at h
        simp at h

/-- Witness for C9: in the trace with a callback, the resolution at index
5 is preceded by the 100 ms timer firing at index 3, itself preceded by
the watch stop at index 1. -/
theorem close_cooldown_witness :
    ∃ j, j < 5 ∧ (closeTrace true).get? j = some (.timerFired 100) ∧
      ∃ r, r < j ∧ (closeTrace true).get? r = some .stopFsEventsWatch :=
  (close_cooldown true).1 5 (by decide)

end FSEventsWatcher

namespace ConstantFolding

/-- A JavaScript literal value, as handled by the folding pass. -/
inductive Lit where
  | str (s : String)
  | num (n : Int)
  | boolean (b : Bool)
  | nullLit
deriving Repr, DecidableEq

/-- Modelled from the spec: the expression fragment of the constant-folding
transform that the claims exercise (`constant-folding-plugin.js` is not
part of the source snapshot, only its tests).  It covers literals,
identifiers, strict equality, the conditional (ternary) operator, plain
and optional calls, and a single-field object literal. -/
inductive Expr where
  | lit (l : Lit)
  | ident (name : String)
  | strictEq (a b : Expr)
  | cond (test cons alt : Expr)
  | call (callee : Expr)
  | optCall (callee : Expr)
  | objLit (field : String) (value : Expr)
deriving Repr, DecidableEq

/-- Statements of the modelled fragment: variable declarations, expression
statements, blocks and `if`. -/
inductive Stmt where
  | varDecl (name : String) (init : Expr)
  | exprStmt (e : Expr)
  | blockStmt (body : List Stmt)
  | ifStmt (test : Expr) (thenBranch : List Stmt)
      (elseBranch : Option (List Stmt))

/-- JavaScript truthiness of a literal. -/
def truthy : Lit → Bool
  | .str s => s ≠ ""
  | .num n => n ≠ 0
  | .boolean b => b
  | .nullLit => false

/-- Modelled from the spec: static evaluation of the fragment — a literal
evaluates to itself and a strict equality of two statically-known operands
to a boolean; an optional-chained call is never statically known (the pass
must not collapse it to `undefined`). -/
def evalConst : Expr → Option Lit
  | .lit l => some l
  | .strictEq a b =>
    match evalConst a, evalConst b with
    | some x, some y => some (.boolean (decide (x = y)))
    | _, _ => none
  | _ => none

/-- Modelled from the spec: the expression-level folding pass — fold
children, replace a statically-known strict equality by its boolean, and a
ternary with a statically-known test by its (folded) taken branch;
optional-chained calls are preserved. -/
def foldExpr : Expr → Expr
  | .lit l => .lit l
  | .ident n => .ident n
  | .strictEq a b =>
    let fa := foldExpr a
    let fb := foldExpr b
    match evalConst fa, evalConst fb with
    | some x, some y => .lit (.boolean (decide (x = y)))
    | _, _ => .strictEq fa fb
  | .cond t c a =>
    let ft := foldExpr t
    match evalConst ft with
    | some tv => if truthy tv then foldExpr c else foldExpr a
    | none => .cond ft (foldExpr c) (foldExpr a)
  | .call c => .call (foldExpr c)
  | .optCall c => .optCall (foldExpr c)
  | .objLit f v => .objLit f (foldExpr v)

mutual

/-- Modelled from the spec: the statement-level folding pass — an `if`
with a statically-known test is replaced by its taken branch as a block,
and elided entirely when the test is falsy and there is no `else`. -/
def foldStmt : Stmt → Option Stmt
  | .varDecl n e => some (.varDecl n (foldExpr e))
  | .exprStmt e => some (.exprStmt (foldExpr e))
  | .blockStmt body => some (.blockStmt (foldStmts body))
  | .ifStmt t thenB elseB =>
    match evalConst (foldExpr t) with
    | some tv =>
      if truthy tv then some (.blockStmt (foldStmts thenB))
      else
        match elseB with
        | none => none
        | some es => some (.blockStmt (foldStmts es))
    | none =>
      some (.ifStmt (foldExpr t) (foldStmts thenB)
        (match elseB with
         | none => none
         | some es => some (foldStmts es)))

/-- Fold a statement list, dropping elided statements. -/
def foldStmts : List Stmt → List Stmt
  | [] => []
  | s :: rest =>
    match foldStmt s with
    | none => foldStmts rest
    | some t => t :: foldStmts rest

end

/-- Claim C5: the folding pass rewrites
`var a = 'android' === 'android' ? a-one-object : a-zero-object;` to
`var a = a-one-object;` with no ternary left, preserves `foo?.();`
unchanged, and elides the whole statement `if (false) something;`. -/
theorem constant_folding_scenarios :
    foldStmts
        [.varDecl "a"
          (.cond (.strictEq (.lit (.str "android")) (.lit (.str "android")))
            (.objLit "a" (.lit (.num 1))) (.objLit "a" (.lit (.num 0))))] =
      [.varDecl "a" (.objLit "a" (.lit (.num 1)))] ∧
    foldStmts [.exprStmt (.optCall (.ident "foo"))] =
      [.exprStmt (.optCall (.ident "foo"))] ∧
    foldStmts
        [.ifStmt (.lit (.boolean false)) [.exprStmt (.call (.ident "x"))]
          none] =
      [] := by
  refine ⟨rfl, rfl, rfl⟩

end ConstantFolding
